import Mathlib

/-
Verification of the remote Selenium WebDriver client (remote.go).

The development shallowly embeds the client's protocol layer:
JSON values and a JSON text parser stand in for encoding/json,
HTTP exchanges are an environment function from requests to responses,
and the driver state machine (session id, quit flag, cancellation
token) is explicit state passing.  Panicking code paths are modelled
with an explicit `Outcome` type.
-/

namespace Selenium

/-- JSON values.  Numbers are modelled exactly as rationals (the Go
code only ever needs integral values of numbers: reply status codes
and cookie expiries). -/
inductive Json where
  | null
  | bool (b : Bool)
  | num (q : Rat)
  | str (s : String)
  | arr (xs : List Json)
  | obj (fields : List (String × Json))
deriving Repr

namespace Json

/-- Hexadecimal digit value, for \uXXXX escapes. -/
def hexVal (c : Char) : Option Nat :=
  if '0' ≤ c ∧ c ≤ '9' then some (c.toNat - 48)
  else if 'a' ≤ c ∧ c ≤ 'f' then some (c.toNat - 87)
  else if 'A' ≤ c ∧ c ≤ 'F' then some (c.toNat - 55)
  else none

/-- JSON insignificant whitespace. -/
def isWs (c : Char) : Bool :=
  c = ' ' || c = '\n' || c = '\t' || c = '\x0d'

/-- Skip leading whitespace. -/
def skipWs : List Char → List Char
  | [] => []
  | c :: cs => if isWs c then skipWs cs else c :: cs

/-- Parse the remainder of a JSON string literal (the opening quote
has already been consumed), handling the standard escapes.  Surrogate
pairs are not recombined (irrelevant to this client). -/
def parseStringAux : Nat → List Char → Option (List Char × List Char)
  | 0, _ => none
  | _, [] => none
  | fuel+1, c :: cs =>
    if c = '"' then some ([], cs)
    else if c = '\\' then
      match cs with
      | [] => none
      | e :: cs2 =>
        if e = '"' then (parseStringAux fuel cs2).map (fun p => ('"' :: p.1, p.2))
        else if e = '\\' then (parseStringAux fuel cs2).map (fun p => ('\\' :: p.1, p.2))
        else if e = '/' then (parseStringAux fuel cs2).map (fun p => ('/' :: p.1, p.2))
        else if e = 'n' then (parseStringAux fuel cs2).map (fun p => ('\n' :: p.1, p.2))
        else if e = 't' then (parseStringAux fuel cs2).map (fun p => ('\t' :: p.1, p.2))
        else if e = 'r' then (parseStringAux fuel cs2).map (fun p => ('\x0d' :: p.1, p.2))
        else if e = 'b' then (parseStringAux fuel cs2).map (fun p => ('\x08' :: p.1, p.2))
        else if e = 'f' then (parseStringAux fuel cs2).map (fun p => ('\x0c' :: p.1, p.2))
        else if e = 'u' then
          match cs2 with
          | a :: b :: c2 :: d :: cs3 =>
            match hexVal a, hexVal b, hexVal c2, hexVal d with
            | some x, some y, some z, some w =>
              (parseStringAux fuel cs3).map
                (fun p => (Char.ofNat (((x * 16 + y) * 16 + z) * 16 + w) :: p.1, p.2))
            | _, _, _, _ => none
          | _ => none
        else none
    else (parseStringAux fuel cs).map (fun p => (c :: p.1, p.2))

/-- Take a maximal run of decimal digits. -/
def takeDigits : List Char → List Char × List Char
  | [] => ([], [])
  | c :: cs =>
    if c.isDigit then
      let p := takeDigits cs
      (c :: p.1, p.2)
    else ([], c :: cs)

/-- Numeric value of a digit run. -/
def digitsVal (ds : List Char) : Nat :=
  ds.foldl (fun a c => a * 10 + (c.toNat - 48)) 0

/-- Parse a JSON number (sign, integer part without redundant leading
zeros, optional fraction, optional exponent) into an exact rational. -/
def parseNum (s : List Char) : Option (Rat × List Char) :=
  let signed : Bool × List Char :=
    match s with
    | '-' :: r => (true, r)
    | _ => (false, s)
  let neg := signed.1
  match takeDigits signed.2 with
  | ([], _) => none
  | (ds, r1) =>
    if ds.length > 1 ∧ ds.headI = '0' then none
    else
      let ip : Rat := (digitsVal ds : Nat)
      let fracStep : Option (Rat × List Char) :=
        match r1 with
        | '.' :: r2 =>
          match takeDigits r2 with
          | ([], _) => none
          | (fs, r3) => some (ip + (digitsVal fs : Rat) / ((10 : Rat) ^ fs.length), r3)
        | _ => some (ip, r1)
      match fracStep with
      | none => none
      | some (v1, r3) =>
        let expStep : Option (Rat × List Char) :=
          match r3 with
          | 'e' :: r4 =>
            match r4 with
            | '+' :: r5 =>
              match takeDigits r5 with
              | ([], _) => none
              | (es, r6) => some (v1 * (10 : Rat) ^ digitsVal es, r6)
            | '-' :: r5 =>
              match takeDigits r5 with
              | ([], _) => none
              | (es, r6) => some (v1 / (10 : Rat) ^ digitsVal es, r6)
            | _ =>
              match takeDigits r4 with
              | ([], _) => none
              | (es, r6) => some (v1 * (10 : Rat) ^ digitsVal es, r6)
          | 'E' :: r4 =>
            match r4 with
            | '+' :: r5 =>
              match takeDigits r5 with
              | ([], _) => none
              | (es, r6) => some (v1 * (10 : Rat) ^ digitsVal es, r6)
            | '-' :: r5 =>
              match takeDigits r5 with
              | ([], _) => none
              | (es, r6) => some (v1 / (10 : Rat) ^ digitsVal es, r6)
            | _ =>
              match takeDigits r4 with
              | ([], _) => none
              | (es, r6) => some (v1 * (10 : Rat) ^ digitsVal es, r6)
          | _ => some (v1, r3)
        match expStep with
        | none => none
        | some (v2, r7) => some (if neg then -v2 else v2, r7)

/-- Parsing mode: a single value, the items of an array (after the
opening bracket), or the fields of an object (after the opening
brace). -/
inductive PMode where
  | val
  | items (first : Bool)
  | fields (first : Bool)

/-- Partial parse results for the three modes. -/
inductive PRes where
  | v (j : Json)
  | items (l : List Json)
  | fields (l : List (String × Json))

/-- Fuel-indexed recursive-descent JSON parser.  The fuel only bounds
recursion depth; `parse` supplies enough for any input of its size. -/
def parseCore : Nat → PMode → List Char → Option (PRes × List Char)
  | 0, _, _ => none
  | fuel+1, PMode.val, s =>
    match skipWs s with
    | [] => none
    | c :: cs =>
      if c = '"' then
        (parseStringAux (cs.length + 1) cs).map
          (fun p => (PRes.v (Json.str ⟨p.1⟩), p.2))
      else if c = 't' then
        match cs with
        | 'r' :: 'u' :: 'e' :: r => some (PRes.v (Json.bool true), r)
        | _ => none
      else if c = 'f' then
        match cs with
        | 'a' :: 'l' :: 's' :: 'e' :: r => some (PRes.v (Json.bool false), r)
        | _ => none
      else if c = 'n' then
        match cs with
        | 'u' :: 'l' :: 'l' :: r => some (PRes.v Json.null, r)
        | _ => none
      else if c = '[' then
        match parseCore fuel (PMode.items true) cs with
        | some (PRes.items l, r) => some (PRes.v (Json.arr l), r)
        | _ => none
      else if c = '{' then
        match parseCore fuel (PMode.fields true) cs with
        | some (PRes.fields l, r) => some (PRes.v (Json.obj l), r)
        | _ => none
      else
        (parseNum (c :: cs)).map (fun p => (PRes.v (Json.num p.1), p.2))
  | fuel+1, PMode.items first, s =>
    match skipWs s with
    | [] => none
    | c :: cs =>
      if c = ']' then some (PRes.items [], cs)
      else
        let body : List Char := if first then c :: cs else
          if c = ',' then cs else []
        if ¬ first ∧ c ≠ ',' then none
        else
          match parseCore fuel PMode.val body with
          | some (PRes.v j, r) =>
            match parseCore fuel (PMode.items false) r with
            | some (PRes.items l, r2) => some (PRes.items (j :: l), r2)
            | _ => none
          | _ => none
  | fuel+1, PMode.fields first, s =>
    match skipWs s with
    | [] => none
    | c :: cs =>
      if c = '}' then some (PRes.fields [], cs)
      else
        let body : List Char := if first then c :: cs else
          if c = ',' then cs else []
        if ¬ first ∧ c ≠ ',' then none
        else
          match skipWs body with
          | '"' :: ks =>
            match parseStringAux (ks.length + 1) ks with
            | none => none
            | some (key, r1) =>
              match skipWs r1 with
              | ':' :: r2 =>
                match parseCore fuel PMode.val r2 with
                | some (PRes.v j, r3) =>
                  match parseCore fuel (PMode.fields false) r3 with
                  | some (PRes.fields l, r4) =>
                    some (PRes.fields (((⟨key⟩ : String), j) :: l), r4)
                  | _ => none
                | _ => none
              | _ => none
          | _ => none

/-- Parse a complete JSON document, as json.Unmarshal does: one value
followed only by whitespace.  `none` models a syntax error. -/
def parse (s : String) : Option Json :=
  match parseCore (4 * s.length + 8) PMode.val s.data with
  | some (PRes.v j, rest) => if (skipWs rest).isEmpty then some j else none
  | _ => none

/-- Lower-case an ASCII letter. -/
def lowerChar (c : Char) : Char :=
  if 65 ≤ c.toNat ∧ c.toNat ≤ 90 then Char.ofNat (c.toNat + 32) else c

/-- Lower-case a string characterwise. -/
def foldLower (s : String) : String := ⟨s.data.map lowerChar⟩

/-- Go's case-insensitive field-name match (encoding/json falls back
to a case-insensitive comparison when no exact field matches; with
single-field structs the two coincide).  Modelled by ASCII folding. -/
def eqFold (a b : String) : Bool := foldLower a = foldLower b

/-- Resolve a struct field from an object's key list the way
encoding/json does: every key matching the field assigns it in
document order, so the last matching key wins. -/
def lookupField (fields : List (String × Json)) (name : String) : Option Json :=
  fields.foldl (fun acc kv => if eqFold kv.1 name then some kv.2 else acc) none

end Json

/-- Server reply envelope (struct reply of remote.go): SessionId,
Status and Value, where Value is a json.RawMessage.  `none` models a
nil RawMessage (field absent), `some j` the raw bytes whose parse is
`j` (encoding/json only hands over syntactically valid subtrees). -/
structure Reply where
  sessionId : String
  status : Int
  value : Option Json

/-- The replyValue struct: \x7bmessage\x7d. -/
structure ReplyValue where
  message : String

/-- The replyMessage struct: \x7berrorMessage\x7d. -/
structure ReplyMessage where
  errorMessage : String

/-- Unmarshal a parsed JSON value into a string, as for a `string`
struct field or target: null leaves the zero value. -/
def decodeGoString : Json → Except String String
  | Json.null => Except.ok ""
  | Json.str s => Except.ok s
  | _ => Except.error "cannot unmarshal into string"

/-- Unmarshal a parsed JSON value into a bool. -/
def decodeGoBool : Json → Except String Bool
  | Json.null => Except.ok false
  | Json.bool b => Except.ok b
  | _ => Except.error "cannot unmarshal into bool"

/-- Unmarshal a parsed JSON value into an int (Go rejects numbers
with a fractional part). -/
def decodeGoInt : Json → Except String Int
  | Json.null => Except.ok 0
  | Json.num q => if q.den = 1 then Except.ok q.num else Except.error "not an integer"
  | _ => Except.error "cannot unmarshal into int"

/-- Unmarshal into the reply struct (target is an allocated *reply,
so a null document is a successful no-op). -/
def decodeReplyJ : Json → Except String Reply
  | Json.null => Except.ok ⟨"", 0, none⟩
  | Json.obj fs => do
    let sid ← match Json.lookupField fs "sessionid" with
      | none => Except.ok ""
      | some j => decodeGoString j
    let st ← match Json.lookupField fs "status" with
      | none => Except.ok 0
      | some j => decodeGoInt j
    let v : Option Json := Json.lookupField fs "value"
    Except.ok ⟨sid, st, v⟩
  | _ => Except.error "cannot unmarshal into reply"

/-- Unmarshal raw bytes (a RawMessage) with a given value decoder, as
reply.readValue does: a nil RawMessage is the empty input, which
json.Unmarshal rejects. -/
def readValueWith (dec : Json → Except String α) : Option Json → Except String α
  | none => Except.error "unexpected end of JSON input"
  | some j => dec j

/-- Unmarshal into replyValue. -/
def decodeReplyValue : Json → Except String ReplyValue
  | Json.null => Except.ok ⟨""⟩
  | Json.obj fs =>
    match Json.lookupField fs "message" with
    | none => Except.ok ⟨""⟩
    | some j => (decodeGoString j).map (fun s => ⟨s⟩)
  | _ => Except.error "cannot unmarshal into replyValue"

/-- Unmarshal into replyMessage. -/
def decodeReplyMessage : Json → Except String ReplyMessage
  | Json.null => Except.ok ⟨""⟩
  | Json.obj fs =>
    match Json.lookupField fs "errormessage" with
    | none => Except.ok ⟨""⟩
    | some j => (decodeGoString j).map (fun s => ⟨s⟩)
  | _ => Except.error "cannot unmarshal into replyMessage"

/-- json.Unmarshal of a string's bytes into replyMessage: parse, then
decode. -/
def unmarshalReplyMessage (s : String) : Except String ReplyMessage :=
  match Json.parse s with
  | none => Except.error "invalid json"
  | some j => decodeReplyMessage j

/-- json.Unmarshal of response-body bytes into an allocated reply. -/
def unmarshalReply (s : String) : Except String Reply :=
  match Json.parse s with
  | none => Except.error "invalid json"
  | some j => decodeReplyJ j

/-- json.Unmarshal of response-body bytes into a *reply variable (as
in send): a null document leaves the pointer nil. -/
def unmarshalReplyPtr (s : String) : Except String (Option Reply) :=
  match Json.parse s with
  | none => Except.error "invalid json"
  | some Json.null => Except.ok none
  | some j => (decodeReplyJ j).map some

/-- The error catalog (errorCodes of remote.go): numeric protocol
status codes to human-readable categories. -/
def errorCodes : List (Int × String) :=
  [(7, "no such element"),
   (8, "no such frame"),
   (9, "unknown command"),
   (10, "stale element reference"),
   (11, "element not visible"),
   (12, "invalid element state"),
   (13, "unknown error"),
   (15, "element is not selectable"),
   (17, "javascript error"),
   (19, "xpath lookup error"),
   (21, "timeout"),
   (23, "no such window"),
   (24, "invalid cookie domain"),
   (25, "unable to set cookie"),
   (26, "unexpected alert open"),
   (27, "no alert open"),
   (28, "script timeout"),
   (29, "invalid element coordinates"),
   (32, "invalid selector")]

/-- Escape one character the way Go's %q (strconv.Quote) does for the
ASCII range; printable characters beyond ASCII pass through
unescaped (an approximation irrelevant to this client's messages). -/
def goQuoteChar (c : Char) : String :=
  if c = '"' then "\\\""
  else if c = '\\' then "\\\\"
  else if c = '\n' then "\\n"
  else if c = '\t' then "\\t"
  else if c = '\x0d' then "\\r"
  else if c.toNat = 7 then "\\a"
  else if c.toNat = 8 then "\\b"
  else if c.toNat = 11 then "\\v"
  else if c.toNat = 12 then "\\f"
  else if c.toNat < 32 then
    let lo := c.toNat % 16
    let hi := c.toNat / 16
    let dig := fun (n : Nat) => String.singleton (Char.ofNat (if n < 10 then 48 + n else 87 + n))
    "\\x" ++ dig hi ++ dig lo
  else String.singleton c

/-- Go's fmt.Sprintf "%q" on a string. -/
def goQuote (s : String) : String :=
  "\"" ++ (s.data.map goQuoteChar).foldl (· ++ ·) "" ++ "\""

/-- The pE closure of remoteWebDriver.execute: turn a non-success
reply envelope into the final error text.  Mirrors the Go control
flow: unmarshal Value as replyValue; when that succeeds and the
message is nonempty, unmarshal the message's bytes as replyMessage to
recover the backend error; look the status up in errorCodes with an
"unknown error - <status>" fallback. -/
def pE (r : Reply) : String :=
  let backendError :=
    match readValueWith decodeReplyValue r.value with
    | Except.error _ => ""
    | Except.ok sr =>
      if sr.message ≠ "" then
        match unmarshalReplyMessage sr.message with
        | Except.error _ => ""
        | Except.ok rm => rm.errorMessage
      else ""
  let message :=
    match errorCodes.lookup r.status with
    | some m => m
    | none => "unknown error - " ++ toString r.status
  message ++ " - " ++ goQuote backendError

/-- Catalog lookup as the spec words it: the catalog entry for the
status, or the synthesized "unknown error - <status>" string. -/
def catalogMessage (status : Int) : String :=
  match errorCodes.lookup status with
  | some m => m
  | none => "unknown error - " ++ toString status

/-- Backend message as the spec words it: decode value as
\x7bmessage\x7d and then that message as \x7berrorMessage\x7d, falling back
to the empty string when either level is absent or fails. -/
def specBackendMessage (value : Option Json) : String :=
  match readValueWith decodeReplyValue value with
  | Except.error _ => ""
  | Except.ok sr =>
    match unmarshalReplyMessage sr.message with
    | Except.error _ => ""
    | Except.ok rm => rm.errorMessage

/-- Protocol error text as the spec words it. -/
def specErrorText (r : Reply) : String :=
  catalogMessage r.status ++ " - " ++ goQuote (specBackendMessage r.value)

/-! ## The command executor and driver state machine -/

/-- Errors produced by the client, tagged by construction site. -/
inductive Err where
  | canceled
  | transport (msg : String)
  | badReplyStatus (msg : String)
  | protocol (msg : String)
  | jsonError (msg : String)
deriving Repr, DecidableEq

/-- An HTTP response as the executor observes it: numeric status
code, status line (res.Status), Content-Type header value, and the
body bytes. -/
structure HttpResponse where
  statusCode : Nat
  status : String
  contentType : String
  body : String

/-- One outgoing HTTP request: method, URL path segments under the
executor base URL (the instantiated sprintf template), and the
marshaled body, kept as its parsed JSON (`none` for a nil body). -/
structure Request where
  method : String
  path : List String
  data : Option Json

/-- The network environment: what each issued request comes back
with - either a transport error from http.Client.Do or a response. -/
abbrev Env := Request → Except String HttpResponse

def jsonMIMEType : String := "application/json"

/-- strings.HasPrefix, characterwise. -/
def strStartsWith (s pre : String) : Bool := pre.data.isPrefixOf s.data

/-- Response classification of remoteWebDriver.execute (the part
after the cancellation checks): HTTP status >= 400 means failure,
with the body parsed as an envelope when possible; otherwise a JSON
content type forces an envelope whose status must be SUCCESS (0);
anything else is an opaque success returning the raw body. -/
def executeResult (env : Env) (method : String) (path : List String)
    (data : Option Json) : Except Err String :=
  match env ⟨method, path, data⟩ with
  | Except.error m => Except.error (Err.transport m)
  | Except.ok res =>
    if 400 ≤ res.statusCode then
      match unmarshalReply res.body with
      | Except.error _ =>
        Except.error (Err.badReplyStatus ("Bad server reply status: " ++ res.status))
      | Except.ok reply => Except.error (Err.protocol (pE reply))
    else if strStartsWith res.contentType jsonMIMEType then
      match unmarshalReply res.body with
      | Except.error m => Except.error (Err.jsonError m)
      | Except.ok reply =>
        if reply.status ≠ 0 then Except.error (Err.protocol (pE reply))
        else Except.ok res.body
    else Except.ok res.body

/-- The network portion of execute: issues exactly one request and
classifies its response. -/
def executeCore (env : Env) (method : String) (path : List String)
    (data : Option Json) : Except Err String × List Request :=
  (executeResult env method path data, [⟨method, path, data⟩])

/-- Driver state (remoteWebDriver): session id, desired capabilities,
whether the driver's context wd.ctx has been canceled (false models
context.Background(), which never fires), and the one-shot quit
flag.  The executor base URL is a fixed prefix of every request and
is left implicit. -/
structure WD where
  id : String
  capabilities : Json
  ctxCanceled : Bool
  haveQuit : Bool

/-- remoteWebDriver.Quit.  A second call is an error-free no-op.  The
first call marks the driver quit, replaces wd.ctx by
context.Background() (modelled by clearing ctxCanceled, so the
session-delete request can never be canceled), issues
DELETE /session/<id>, and clears the id when that delete succeeds.
Each operation returns the successor state, its Go return values, and
the requests it put on the wire. -/
def Quit (env : Env) (wd : WD) : WD × Option Err × List Request :=
  if wd.haveQuit then (wd, none, [])
  else
    let wd1 : WD := { wd with haveQuit := true, ctxCanceled := false }
    match executeCore env "DELETE" ["session", wd.id] none with
    | (Except.ok _, reqs) => ({ wd1 with id := "" }, none, reqs)
    | (Except.error e, reqs) => (wd1, some e, reqs)

/-- remoteWebDriver.execute.  The select before the request checks
wd.ctx; if it has fired, the command fails with ErrCanceled without
touching the network (beyond the best-effort Quit) - the deferred
select is not yet installed at that return.  Otherwise the request is
issued, and the deferred select re-checks wd.ctx; `cancelAfter`
says whether the token is observed fired at that second check (the
token can fire during the round-trip).  Quit's own calls re-enter
this function with wd.ctx = context.Background(), for which both
checks are statically quiet, so they are routed to executeCore. -/
def execute (env : Env) (wd : WD) (cancelAfter : Bool) (method : String)
    (path : List String) (data : Option Json) :
    WD × Except Err String × List Request :=
  if wd.ctxCanceled then
    match Quit env wd with
    | (wd1, _, qreqs) => (wd1, Except.error Err.canceled, qreqs)
  else
    match executeCore env method path data with
    | (res, reqs) =>
      if cancelAfter then
        match Quit env { wd with ctxCanceled := true } with
        | (wd1, _, qreqs) => (wd1, Except.error Err.canceled, reqs ++ qreqs)
      else (wd, res, reqs)

/-- remoteWebDriver.send: execute, then unmarshal a nonempty body
into a possibly-nil *reply.  An empty successful body yields a nil
reply and a nil error. -/
def send (env : Env) (wd : WD) (cancelAfter : Bool) (method : String)
    (path : List String) (data : Option Json) :
    WD × Except Err (Option Reply) × List Request :=
  match execute env wd cancelAfter method path data with
  | (wd1, Except.error e, reqs) => (wd1, Except.error e, reqs)
  | (wd1, Except.ok buf, reqs) =>
    if buf.length > 0 then
      match unmarshalReplyPtr buf with
      | Except.error m => (wd1, Except.error (Err.jsonError m), reqs)
      | Except.ok r => (wd1, Except.ok r, reqs)
    else (wd1, Except.ok none, reqs)

/-- Result of running Go code that may panic. -/
inductive Outcome (α : Type) where
  | ok (a : α)
  | panicked (msg : String)
deriving Repr

/-- The runtime message of a nil-pointer dereference. -/
def nilDeref : String :=
  "runtime error: invalid memory address or nil pointer dereference"

/-- remoteWebDriver.stringCommand: GET, then r.readValue into a
string.  When send produced a nil reply, r.readValue dereferences the
nil pointer and the program panics. -/
def stringCommand (env : Env) (wd : WD) (cancelAfter : Bool)
    (path : List String) : WD × Outcome (Except Err String) × List Request :=
  match send env wd cancelAfter "GET" path none with
  | (wd1, Except.error e, reqs) => (wd1, Outcome.ok (Except.error e), reqs)
  | (wd1, Except.ok none, reqs) => (wd1, Outcome.panicked nilDeref, reqs)
  | (wd1, Except.ok (some r), reqs) =>
    match readValueWith decodeGoString r.value with
    | Except.error m => (wd1, Outcome.ok (Except.error (Err.jsonError m)), reqs)
    | Except.ok v => (wd1, Outcome.ok (Except.ok v), reqs)

/-- Unmarshal into []string: element nulls keep the zero value. -/
def decodeGoStrings : Json → Except String (List String)
  | Json.null => Except.ok []
  | Json.arr xs => xs.mapM decodeGoString
  | _ => Except.error "cannot unmarshal into string slice"

/-- remoteWebDriver.stringsCommand. -/
def stringsCommand (env : Env) (wd : WD) (cancelAfter : Bool)
    (path : List String) :
    WD × Outcome (Except Err (List String)) × List Request :=
  match send env wd cancelAfter "GET" path none with
  | (wd1, Except.error e, reqs) => (wd1, Outcome.ok (Except.error e), reqs)
  | (wd1, Except.ok none, reqs) => (wd1, Outcome.panicked nilDeref, reqs)
  | (wd1, Except.ok (some r), reqs) =>
    match readValueWith decodeGoStrings r.value with
    | Except.error m => (wd1, Outcome.ok (Except.error (Err.jsonError m)), reqs)
    | Except.ok v => (wd1, Outcome.ok (Except.ok v), reqs)

/-- remoteWebDriver.boolCommand. -/
def boolCommand (env : Env) (wd : WD) (cancelAfter : Bool)
    (path : List String) : WD × Outcome (Except Err Bool) × List Request :=
  match send env wd cancelAfter "GET" path none with
  | (wd1, Except.error e, reqs) => (wd1, Outcome.ok (Except.error e), reqs)
  | (wd1, Except.ok none, reqs) => (wd1, Outcome.panicked nilDeref, reqs)
  | (wd1, Except.ok (some r), reqs) =>
    match readValueWith decodeGoBool r.value with
    | Except.error m => (wd1, Outcome.ok (Except.error (Err.jsonError m)), reqs)
    | Except.ok v => (wd1, Outcome.ok (Except.ok v), reqs)

/-- remoteWebDriver.voidCommand: POST the marshaled params and ignore
the reply value (marshaling of this client's parameter maps never
fails). -/
def voidCommand (env : Env) (wd : WD) (cancelAfter : Bool)
    (path : List String) (params : Option Json) :
    WD × Option Err × List Request :=
  match send env wd cancelAfter "POST" path params with
  | (wd1, Except.error e, reqs) => (wd1, some e, reqs)
  | (wd1, Except.ok _, reqs) => (wd1, none, reqs)

/-- remoteWebDriver.NewSession: POST \x7bdesiredCapabilities\x7d to
/session and store the returned session id.  A nil reply makes
r.SessionId a nil dereference. -/
def NewSession (env : Env) (wd : WD) (cancelAfter : Bool) :
    WD × Outcome (Except Err String) × List Request :=
  let message := Json.obj [("desiredCapabilities", wd.capabilities)]
  match send env wd cancelAfter "POST" ["session"] (some message) with
  | (wd1, Except.error e, reqs) => (wd1, Outcome.ok (Except.error e), reqs)
  | (wd1, Except.ok none, reqs) => (wd1, Outcome.panicked nilDeref, reqs)
  | (wd1, Except.ok (some r), reqs) =>
    ({ wd1 with id := r.sessionId }, Outcome.ok (Except.ok r.sessionId), reqs)

/-! ## Cookies and the expiry patch -/

/-- The Cookie struct.  Expiry's json tag is "-": the primary decode
never touches it. -/
structure Cookie where
  name : String
  value : String
  path : String
  domain : String
  secure : Bool
  expiry : Nat
deriving Repr, DecidableEq

/-- Decode a string struct field from an object's keys: an absent key
keeps the zero value. -/
def decodeStrField (fs : List (String × Json)) (key : String) : Except String String :=
  match Json.lookupField fs key with
  | none => Except.ok ""
  | some j => decodeGoString j

/-- Decode a bool struct field from an object's keys. -/
def decodeBoolField (fs : List (String × Json)) (key : String) : Except String Bool :=
  match Json.lookupField fs key with
  | none => Except.ok false
  | some j => decodeGoBool j

/-- Unmarshal one cookie.  Only the tagged fields participate; the
Expiry field (tag "-") is skipped by encoding/json, so it keeps its
zero value. -/
def decodeCookie : Json → Except String Cookie
  | Json.null => Except.ok ⟨"", "", "", "", false, 0⟩
  | Json.obj fs =>
    match decodeStrField fs "name" with
    | Except.error e => Except.error e
    | Except.ok name =>
      match decodeStrField fs "value" with
      | Except.error e => Except.error e
      | Except.ok value =>
        match decodeStrField fs "path" with
        | Except.error e => Except.error e
        | Except.ok path =>
          match decodeStrField fs "domain" with
          | Except.error e => Except.error e
          | Except.ok domain =>
            match decodeBoolField fs "secure" with
            | Except.error e => Except.error e
            | Except.ok secure => Except.ok ⟨name, value, path, domain, secure, 0⟩
  | _ => Except.error "cannot unmarshal into Cookie"

/-- Unmarshal into []Cookie. -/
def decodeCookies : Json → Except String (List Cookie)
  | Json.null => Except.ok []
  | Json.arr xs => xs.mapM decodeCookie
  | _ => Except.error "cannot unmarshal into cookie slice"

/-- A full-string Go/JSON number literal, as json.Number accepts from
a quoted string. -/
def parseNumberLit (s : String) : Option Rat :=
  match Json.parseNum s.data with
  | some (q, []) => some q
  | _ => none

/-- Unmarshal one element of the anonymous
[]struct\x7bExpiry json.Number\x7d of parseCookieExpiry.  The struct
result keeps only what its later use can observe: `none` when
Expiry's literal will fail Float64 (the zero Number ""), `some q` the
numeric value.  json.Number accepts a number or a numeric string. -/
def decodeExpiryElem : Json → Except String (Option Rat)
  | Json.null => Except.ok none
  | Json.obj fs =>
    match Json.lookupField fs "expiry" with
    | none => Except.ok none
    | some Json.null => Except.ok none
    | some (Json.num q) => Except.ok (some q)
    | some (Json.str s) =>
      match parseNumberLit s with
      | some q => Except.ok (some q)
      | none => Except.error "cannot unmarshal string into json.Number"
    | some _ => Except.error "cannot unmarshal into json.Number"
  | _ => Except.error "cannot unmarshal into expiry struct"

/-- Unmarshal the raw reply value into the expiry slice. -/
def decodeExpiries : Option Json → Except String (List (Option Rat))
  | none => Except.error "unexpected end of JSON input"
  | some Json.null => Except.ok []
  | some (Json.arr xs) => xs.mapM decodeExpiryElem
  | some _ => Except.error "cannot unmarshal into expiry slice"

/-- Go's uint(f) conversion of a non-negative float truncates, which
is the floor; negative expiries do not occur on this path. -/
def goFloatToUint (q : Rat) : Nat := q.floor.toNat

/-- The write-back loop of parseCookieExpiry: `for i := range
*cookies` indexes expiries[i], so a shorter expiry slice would be an
index-out-of-range panic. -/
def patchExpiries : List Cookie → List (Option Rat) → Outcome (List Cookie)
  | [], _ => Outcome.ok []
  | _ :: _, [] => Outcome.panicked "runtime error: index out of range"
  | c :: cs, e :: es =>
    match patchExpiries cs es with
    | Outcome.panicked m => Outcome.panicked m
    | Outcome.ok cs1 =>
      match e with
      | none => Outcome.ok (c :: cs1)
      | some q => Outcome.ok ({ c with expiry := goFloatToUint q } :: cs1)

/-- parseCookieExpiry: re-parse the raw envelope value as an expiry
slice; on failure leave the cookies untouched, on success write each
tolerant numeric's floor into the cookie at the same position. -/
def parseCookieExpiry (cookies : List Cookie) (raw : Option Json) :
    Outcome (List Cookie) :=
  match decodeExpiries raw with
  | Except.error _ => Outcome.ok cookies
  | Except.ok exps => patchExpiries cookies exps

/-- remoteWebDriver.GetCookies: primary decode of the reply value
into []Cookie, then the expiry patch on the same raw value. -/
def GetCookies (env : Env) (wd : WD) (cancelAfter : Bool) :
    WD × Outcome (Except Err (List Cookie)) × List Request :=
  match send env wd cancelAfter "GET" ["session", wd.id, "cookie"] none with
  | (wd1, Except.error e, reqs) => (wd1, Outcome.ok (Except.error e), reqs)
  | (wd1, Except.ok none, reqs) => (wd1, Outcome.panicked nilDeref, reqs)
  | (wd1, Except.ok (some r), reqs) =>
    match readValueWith decodeCookies r.value with
    | Except.error m => (wd1, Outcome.ok (Except.error (Err.jsonError m)), reqs)
    | Except.ok c =>
      match parseCookieExpiry c r.value with
      | Outcome.panicked m => (wd1, Outcome.panicked m, reqs)
      | Outcome.ok c2 => (wd1, Outcome.ok (Except.ok c2), reqs)

/-! ## Element references -/

/-- Unmarshal into the element struct
(\x7bElement string with json tag ELEMENT\x7d); the result is the opaque
remote id. -/
def decodeElementJ : Json → Except String String
  | Json.null => Except.ok ""
  | Json.obj fs =>
    match Json.lookupField fs "element" with
    | none => Except.ok ""
    | some j => decodeGoString j
  | _ => Except.error "cannot unmarshal into element"

/-- Unmarshal into []element. -/
def decodeElementsJ : Json → Except String (List String)
  | Json.null => Except.ok []
  | Json.arr xs => xs.mapM decodeElementJ
  | _ => Except.error "cannot unmarshal into element slice"

/-- decodeElement of remote.go: r.readValue into element, and panic
when it fails (or when r itself is nil).  The returned id is the
remoteWE handle's id. -/
def decodeElement (r : Option Reply) : Outcome String :=
  match r with
  | none => Outcome.panicked nilDeref
  | some r =>
    match readValueWith decodeElementJ r.value with
    | Except.error m => Outcome.panicked m
    | Except.ok el => Outcome.ok el

/-- decodeElements of remote.go: like decodeElement, for a slice. -/
def decodeElements (r : Option Reply) : Outcome (List String)  :=
  match r with
  | none => Outcome.panicked nilDeref
  | some r =>
    match readValueWith decodeElementsJ r.value with
    | Except.error m => Outcome.panicked m
    | Except.ok els => Outcome.ok els

/-- remoteWebDriver.find: POST \x7busing, value\x7d to
/session/<id>/element or .../elements. -/
def find (env : Env) (wd : WD) (cancelAfter : Bool)
    (strategy value : String) (plural : Bool) :
    WD × Except Err (Option Reply) × List Request :=
  let params := Json.obj [("using", Json.str strategy), ("value", Json.str value)]
  let leaf := if plural then "elements" else "element"
  send env wd cancelAfter "POST" ["session", wd.id, leaf] (some params)

/-- remoteWebDriver.FindElement. -/
def FindElement (env : Env) (wd : WD) (cancelAfter : Bool)
    (strategy value : String) : WD × Outcome (Except Err String) × List Request :=
  match find env wd cancelAfter strategy value false with
  | (wd1, Except.error e, reqs) => (wd1, Outcome.ok (Except.error e), reqs)
  | (wd1, Except.ok r, reqs) =>
    match decodeElement r with
    | Outcome.panicked m => (wd1, Outcome.panicked m, reqs)
    | Outcome.ok el => (wd1, Outcome.ok (Except.ok el), reqs)

/-- remoteWebDriver.FindElements. -/
def FindElements (env : Env) (wd : WD) (cancelAfter : Bool)
    (strategy value : String) :
    WD × Outcome (Except Err (List String)) × List Request :=
  match find env wd cancelAfter strategy value true with
  | (wd1, Except.error e, reqs) => (wd1, Outcome.ok (Except.error e), reqs)
  | (wd1, Except.ok r, reqs) =>
    match decodeElements r with
    | Outcome.panicked m => (wd1, Outcome.panicked m, reqs)
    | Outcome.ok els => (wd1, Outcome.ok (Except.ok els), reqs)

/-! ## Script arguments -/

/-- A Go interface\x7b\x7d value as a script argument: plain JSON data, a
*remoteWE element handle, the wire-level element reference
&element\x7bElement: id\x7d, or a []interface\x7b\x7d slice (which can nest
handles).  Slices are encoded cons-style - snil / scons - so that
recursion over the tree stays structural. -/
inductive GoValue where
  | jval (j : Json)
  | handle (id : String)
  | elementRef (id : String)
  | snil
  | scons (hd tl : GoValue)
deriving Repr

/-- json.Marshal of such a value.  A *remoteWE has no exported
fields, so it marshals as the empty object; the element struct
marshals as \x7bELEMENT: id\x7d; a slice marshals elementwise (the
scons tail is always a slice chain, so the fallback arm of the tail
match is dead). -/
def marshalGoValue : GoValue → Json
  | GoValue.jval j => j
  | GoValue.handle _ => Json.obj []
  | GoValue.elementRef id => Json.obj [("ELEMENT", Json.str id)]
  | GoValue.snil => Json.arr []
  | GoValue.scons hd tl =>
    match marshalGoValue tl with
    | Json.arr l => Json.arr (marshalGoValue hd :: l)
    | _ => Json.arr [marshalGoValue hd]

/-- The rewrite loop of remoteWebDriver.execScript: `for i, arg :=
range args`, replacing an argument that is itself a *remoteWE by
&element\x7bElement: id\x7d.  Only the top level of the list is
inspected. -/
def substituteScriptArgs (args : List GoValue) : List GoValue :=
  args.map (fun a =>
    match a with
    | GoValue.handle id => GoValue.elementRef id
    | a => a)

/-- Modelled from the spec: the substitution the spec asks for, which
rewrites every element handle at every depth of the argument
structure. -/
def specDeepSubstitute : GoValue → GoValue
  | GoValue.jval j => GoValue.jval j
  | GoValue.handle id => GoValue.elementRef id
  | GoValue.elementRef id => GoValue.elementRef id
  | GoValue.snil => GoValue.snil
  | GoValue.scons hd tl => GoValue.scons (specDeepSubstitute hd) (specDeepSubstitute tl)

/-- The marshaled args array of a script-execution command. -/
def scriptArgsJson (args : List GoValue) : Json :=
  Json.arr ((substituteScriptArgs args).map marshalGoValue)

/-- remoteWebDriver.execScript: substitute handles, POST
\x7bscript, args\x7d (map keys marshal sorted: args first) to
/session/<id>/execute plus the suffix, and read the reply value as an
interface\x7b\x7d. -/
def execScript (env : Env) (wd : WD) (cancelAfter : Bool)
    (script : String) (args : List GoValue) (sfx : String) :
    WD × Outcome (Except Err Json) × List Request :=
  let params := Json.obj [("args", scriptArgsJson args), ("script", Json.str script)]
  match send env wd cancelAfter "POST" ["session", wd.id, "execute" ++ sfx]
      (some params) with
  | (wd1, Except.error e, reqs) => (wd1, Outcome.ok (Except.error e), reqs)
  | (wd1, Except.ok none, reqs) => (wd1, Outcome.panicked nilDeref, reqs)
  | (wd1, Except.ok (some r), reqs) =>
    match r.value with
    | none =>
      (wd1, Outcome.ok (Except.error (Err.jsonError "unexpected end of JSON input")), reqs)
    | some j => (wd1, Outcome.ok (Except.ok j), reqs)

/-! ## Redirect policy -/

/-- A request as the redirect policy sees it: the values of its
Accept header (Header.Add appends). -/
structure HReq where
  accept : List String
deriving Repr, DecidableEq

/-- httpClient.CheckRedirect of remote.go: refuse once ten requests
have been made, otherwise re-add the Accept header to the upcoming
redirected request. -/
def checkRedirect (req : HReq) (via : List HReq) : Except String HReq :=
  if 10 ≤ via.length then Except.error "stopped after 10 redirects"
  else Except.ok { req with accept := req.accept ++ [jsonMIMEType] }

/-- Modelled from Go's net/http client redirect loop (the context in
which CheckRedirect runs, absent from this repository): the current
request is sent and appended to `via`; while the response is a
redirect (`n` counts the redirect responses the server will give),
the next request is created with fresh headers and passed through
CheckRedirect together with all requests made so far, including the
initial one. -/
def redirectLoop : Nat → List HReq → HReq → Except String (List HReq)
  | 0, via, cur => Except.ok (via ++ [cur])
  | n+1, via, cur =>
    let via1 := via ++ [cur]
    match checkRedirect ⟨[]⟩ via1 with
    | Except.error e => Except.error e
    | Except.ok nxt => redirectLoop n via1 nxt

/-- A whole exchange against a server that answers with `n` redirects
and then a final response; execute's initial request carries the
Accept header.  Returns every request put on the wire. -/
def runRedirects (n : Nat) : Except String (List HReq) :=
  redirectLoop n [] ⟨[jsonMIMEType]⟩

/-! ## Driver operations as a step system -/

/-- The driver operations modelled here, one constructor per public
method shape of remote.go. -/
inductive Op where
  | opQuit
  | opNewSession
  | opTitle
  | opNavigate (url : String)
  | opClose
  | opDeleteAllCookies
  | opDeleteCookie (name : String)
  | opGetCookies
  | opFindElement (strategy value : String)
  | opExecuteScript (script : String) (args : List GoValue)

/-- One step of a driver history: the environment answering this
step's requests, whether the caller's cancellation is observed at the
post-round-trip check, and the operation. -/
structure StepInput where
  env : Env
  cancelAfter : Bool
  op : Op

/-- Run one operation, keeping the successor state, the wire trace,
and whether the operation panicked. -/
def stepOp (s : StepInput) (wd : WD) : WD × List Request × Bool :=
  match s.op with
  | Op.opQuit =>
    match Quit s.env wd with
    | (wd1, _, reqs) => (wd1, reqs, false)
  | Op.opNewSession =>
    match NewSession s.env wd s.cancelAfter with
    | (wd1, Outcome.panicked _, reqs) => (wd1, reqs, true)
    | (wd1, Outcome.ok _, reqs) => (wd1, reqs, false)
  | Op.opTitle =>
    match stringCommand s.env wd s.cancelAfter ["session", wd.id, "title"] with
    | (wd1, Outcome.panicked _, reqs) => (wd1, reqs, true)
    | (wd1, Outcome.ok _, reqs) => (wd1, reqs, false)
  | Op.opNavigate url =>
    match voidCommand s.env wd s.cancelAfter ["session", wd.id, "url"]
        (some (Json.obj [("url", Json.str url)])) with
    | (wd1, _, reqs) => (wd1, reqs, false)
  | Op.opClose =>
    match execute s.env wd s.cancelAfter "DELETE" ["session", wd.id, "window"] none with
    | (wd1, _, reqs) => (wd1, reqs, false)
  | Op.opDeleteAllCookies =>
    match execute s.env wd s.cancelAfter "DELETE" ["session", wd.id, "cookie"] none with
    | (wd1, _, reqs) => (wd1, reqs, false)
  | Op.opDeleteCookie name =>
    match execute s.env wd s.cancelAfter "DELETE" ["session", wd.id, "cookie", name] none with
    | (wd1, _, reqs) => (wd1, reqs, false)
  | Op.opGetCookies =>
    match GetCookies s.env wd s.cancelAfter with
    | (wd1, Outcome.panicked _, reqs) => (wd1, reqs, true)
    | (wd1, Outcome.ok _, reqs) => (wd1, reqs, false)
  | Op.opFindElement strategy value =>
    match FindElement s.env wd s.cancelAfter strategy value with
    | (wd1, Outcome.panicked _, reqs) => (wd1, reqs, true)
    | (wd1, Outcome.ok _, reqs) => (wd1, reqs, false)
  | Op.opExecuteScript script args =>
    match execScript s.env wd s.cancelAfter script args "" with
    | (wd1, Outcome.panicked _, reqs) => (wd1, reqs, true)
    | (wd1, Outcome.ok _, reqs) => (wd1, reqs, false)

/-- Run a history of operations; a panic aborts the program and with
it the remaining history. -/
def runSteps : List StepInput → WD → WD × List Request
  | [], wd => (wd, [])
  | s :: rest, wd =>
    match stepOp s wd with
    | (wd1, reqs, true) => (wd1, reqs)
    | (wd1, reqs, false) =>
      match runSteps rest wd1 with
      | (wdN, more) => (wdN, reqs ++ more)

/-- A session-delete request: DELETE on /session/<id> with nothing
below it. -/
def isSessionDelete (r : Request) : Bool :=
  r.method = "DELETE" &&
    (match r.path with
     | [seg, _] => seg = "session"
     | _ => false)

/-- Number of session-delete requests in a trace. -/
def countSessionDeletes (reqs : List Request) : Nat :=
  (reqs.filter isSessionDelete).length

/-- One unit of quit budget: a driver that has not quit yet may still
send its single session delete. -/
def quitBudget (wd : WD) : Nat := if wd.haveQuit then 0 else 1

/-- The driver NewRemote builds before creating a session: empty id,
live background context, quit flag clear. -/
def initialWD (capabilities : Json) : WD :=
  { id := "", capabilities := capabilities, ctxCanceled := false, haveQuit := false }

/-! ## Trace accounting lemmas -/

theorem countSD_append (a b : List Request) :
    countSessionDeletes (a ++ b) = countSessionDeletes a + countSessionDeletes b := by
  simp [countSessionDeletes, List.filter_append]

theorem countSD_single_of_not (r : Request) (h : isSessionDelete r = false) :
    countSessionDeletes [r] = 0 := by
  simp [countSessionDeletes, h]

theorem countSD_cons_of_not (r : Request) (l : List Request)
    (h : isSessionDelete r = false) :
    countSessionDeletes (r :: l) = countSessionDeletes l := by
  simp [countSessionDeletes, List.filter_cons, h]

theorem quit_sd (env : Env) (wd : WD) :
    countSessionDeletes (Quit env wd).2.2 + quitBudget (Quit env wd).1 = quitBudget wd := by
  by_cases h : wd.haveQuit = true
  · simp [Quit, h, quitBudget, countSessionDeletes]
  · have h1 : wd.haveQuit = false := by simpa using h
    rcases hres : executeResult env "DELETE" ["session", wd.id] none with e | b <;>
      simp [Quit, executeCore, h1, hres, quitBudget, countSessionDeletes, isSessionDelete]

theorem quit_haveQuit (env : Env) (wd : WD) : ((Quit env wd).1).haveQuit = true := by
  by_cases h : wd.haveQuit = true
  · simp [Quit, h]
  · have h1 : wd.haveQuit = false := by simpa using h
    rcases hres : executeResult env "DELETE" ["session", wd.id] none with e | b <;>
      simp [Quit, executeCore, h1, hres]

theorem execute_sd (env : Env) (wd : WD) (cA : Bool) (m : String)
    (p : List String) (d : Option Json) (h : isSessionDelete ⟨m, p, d⟩ = false) :
    countSessionDeletes (execute env wd cA m p d).2.2 +
      quitBudget (execute env wd cA m p d).1 = quitBudget wd := by
  by_cases hc : wd.ctxCanceled = true
  · have hq := quit_sd env wd
    rcases hqe : Quit env wd with ⟨wd1, e, reqs⟩
    rw [hqe] at hq
    simpa [execute, hc, hqe] using hq
  · have hc1 : wd.ctxCanceled = false := by simpa using hc
    by_cases ha : cA = true
    · have hq := quit_sd env { wd with ctxCanceled := true }
      rcases hqe : Quit env { wd with ctxCanceled := true } with ⟨wd1, e, reqs⟩
      rw [hqe] at hq
      have : quitBudget { wd with ctxCanceled := true } = quitBudget wd := rfl
      rw [this] at hq
      simpa [execute, hc1, ha, executeCore, hqe, countSD_cons_of_not _ _ h] using hq
    · have ha1 : cA = false := by simpa using ha
      simp [execute, hc1, ha1, executeCore, countSD_single_of_not _ h]

theorem send_sd (env : Env) (wd : WD) (cA : Bool) (m : String)
    (p : List String) (d : Option Json) (h : isSessionDelete ⟨m, p, d⟩ = false) :
    countSessionDeletes (send env wd cA m p d).2.2 +
      quitBudget (send env wd cA m p d).1 = quitBudget wd := by
  have he := execute_sd env wd cA m p d h
  rcases hx : execute env wd cA m p d with ⟨wd1, res, reqs⟩
  rw [hx] at he
  rcases res with e | buf
  · simpa [send, hx] using he
  · by_cases hb : buf.length > 0
    · rcases hr : unmarshalReplyPtr buf with msg | r <;>
        simpa [send, hx, hb, hr] using he
    · simpa [send, hx, hb] using he

/-! ## Wrapper projection lemmas: each command returns send's
successor state and trace unchanged. -/

theorem stringCommand_proj (env : Env) (wd : WD) (cA : Bool) (p : List String) :
    (stringCommand env wd cA p).1 = (send env wd cA "GET" p none).1 ∧
    (stringCommand env wd cA p).2.2 = (send env wd cA "GET" p none).2.2 := by
  rcases h : send env wd cA "GET" p none with ⟨wd1, res, reqs⟩
  rcases res with e | r
  · simp [stringCommand, h]
  · rcases r with _ | r
    · simp [stringCommand, h]
    · rcases hv : readValueWith decodeGoString r.value with m | v <;>
        simp [stringCommand, h, hv]

theorem stringsCommand_proj (env : Env) (wd : WD) (cA : Bool) (p : List String) :
    (stringsCommand env wd cA p).1 = (send env wd cA "GET" p none).1 ∧
    (stringsCommand env wd cA p).2.2 = (send env wd cA "GET" p none).2.2 := by
  rcases h : send env wd cA "GET" p none with ⟨wd1, res, reqs⟩
  rcases res with e | r
  · simp [stringsCommand, h]
  · rcases r with _ | r
    · simp [stringsCommand, h]
    · rcases hv : readValueWith decodeGoStrings r.value with m | v <;>
        simp [stringsCommand, h, hv]

theorem boolCommand_proj (env : Env) (wd : WD) (cA : Bool) (p : List String) :
    (boolCommand env wd cA p).1 = (send env wd cA "GET" p none).1 ∧
    (boolCommand env wd cA p).2.2 = (send env wd cA "GET" p none).2.2 := by
  rcases h : send env wd cA "GET" p none with ⟨wd1, res, reqs⟩
  rcases res with e | r
  · simp [boolCommand, h]
  · rcases r with _ | r
    · simp [boolCommand, h]
    · rcases hv : readValueWith decodeGoBool r.value with m | v <;>
        simp [boolCommand, h, hv]

theorem voidCommand_proj (env : Env) (wd : WD) (cA : Bool) (p : List String)
    (params : Option Json) :
    (voidCommand env wd cA p params).1 = (send env wd cA "POST" p params).1 ∧
    (voidCommand env wd cA p params).2.2 = (send env wd cA "POST" p params).2.2 := by
  rcases h : send env wd cA "POST" p params with ⟨wd1, res, reqs⟩
  rcases res with e | r <;> simp [voidCommand, h]

theorem GetCookies_proj (env : Env) (wd : WD) (cA : Bool) :
    (GetCookies env wd cA).1 = (send env wd cA "GET" ["session", wd.id, "cookie"] none).1 ∧
    (GetCookies env wd cA).2.2 = (send env wd cA "GET" ["session", wd.id, "cookie"] none).2.2 := by
  rcases h : send env wd cA "GET" ["session", wd.id, "cookie"] none with ⟨wd1, res, reqs⟩
  rcases res with e | r
  · simp [GetCookies, h]
  · rcases r with _ | r
    · simp [GetCookies, h]
    · rcases hv : readValueWith decodeCookies r.value with m | c
      · simp [GetCookies, h, hv]
      · rcases hp : parseCookieExpiry c r.value with c2 | m <;>
          simp [GetCookies, h, hv, hp]

theorem FindElement_proj (env : Env) (wd : WD) (cA : Bool) (strategy value : String) :
    (FindElement env wd cA strategy value).1 =
      (find env wd cA strategy value false).1 ∧
    (FindElement env wd cA strategy value).2.2 =
      (find env wd cA strategy value false).2.2 := by
  rcases h : find env wd cA strategy value false with ⟨wd1, res, reqs⟩
  rcases res with e | r
  · simp [FindElement, h]
  · rcases hd : decodeElement r with el | m <;> simp [FindElement, h, hd]

theorem execScript_proj (env : Env) (wd : WD) (cA : Bool)
    (script : String) (args : List GoValue) (sfx : String) :
    (execScript env wd cA script args sfx).1 =
      (send env wd cA "POST" ["session", wd.id, "execute" ++ sfx]
        (some (Json.obj [("args", scriptArgsJson args), ("script", Json.str script)]))).1 ∧
    (execScript env wd cA script args sfx).2.2 =
      (send env wd cA "POST" ["session", wd.id, "execute" ++ sfx]
        (some (Json.obj [("args", scriptArgsJson args), ("script", Json.str script)]))).2.2 := by
  rcases h : send env wd cA "POST" ["session", wd.id, "execute" ++ sfx]
      (some (Json.obj [("args", scriptArgsJson args), ("script", Json.str script)])) with
    ⟨wd1, res, reqs⟩
  rcases res with e | r
  · simp [execScript, h]
  · rcases r with _ | r
    · simp [execScript, h]
    · rcases hv : r.value with _ | j <;> simp [execScript, h, hv]

theorem NewSession_proj (env : Env) (wd : WD) (cA : Bool) :
    ((NewSession env wd cA).1).haveQuit =
      ((send env wd cA "POST" ["session"]
        (some (Json.obj [("desiredCapabilities", wd.capabilities)]))).1).haveQuit ∧
    (NewSession env wd cA).2.2 =
      (send env wd cA "POST" ["session"]
        (some (Json.obj [("desiredCapabilities", wd.capabilities)]))).2.2 := by
  rcases h : send env wd cA "POST" ["session"]
      (some (Json.obj [("desiredCapabilities", wd.capabilities)])) with ⟨wd1, res, reqs⟩
  rcases res with e | r
  · simp [NewSession, h]
  · rcases r with _ | r <;> simp [NewSession, h]

/-! ## Per-command session-delete accounting -/

theorem stringCommand_sd (env : Env) (wd : WD) (cA : Bool) (p : List String)
    (h : isSessionDelete ⟨"GET", p, none⟩ = false) :
    countSessionDeletes (stringCommand env wd cA p).2.2 +
      quitBudget (stringCommand env wd cA p).1 = quitBudget wd := by
  have hp := stringCommand_proj env wd cA p
  rw [hp.1, hp.2]
  exact send_sd env wd cA "GET" p none h

theorem voidCommand_sd (env : Env) (wd : WD) (cA : Bool) (p : List String)
    (params : Option Json) (h : isSessionDelete ⟨"POST", p, params⟩ = false) :
    countSessionDeletes (voidCommand env wd cA p params).2.2 +
      quitBudget (voidCommand env wd cA p params).1 = quitBudget wd := by
  have hp := voidCommand_proj env wd cA p params
  rw [hp.1, hp.2]
  exact send_sd env wd cA "POST" p params h

theorem GetCookies_sd (env : Env) (wd : WD) (cA : Bool) :
    countSessionDeletes (GetCookies env wd cA).2.2 +
      quitBudget (GetCookies env wd cA).1 = quitBudget wd := by
  have hp := GetCookies_proj env wd cA
  rw [hp.1, hp.2]
  exact send_sd env wd cA "GET" ["session", wd.id, "cookie"] none rfl

theorem FindElement_sd (env : Env) (wd : WD) (cA : Bool) (strategy value : String) :
    countSessionDeletes (FindElement env wd cA strategy value).2.2 +
      quitBudget (FindElement env wd cA strategy value).1 = quitBudget wd := by
  have hp := FindElement_proj env wd cA strategy value
  rw [hp.1, hp.2]
  exact send_sd env wd cA "POST" ["session", wd.id, "element"]
    (some (Json.obj [("using", Json.str strategy), ("value", Json.str value)])) rfl

theorem execScript_sd (env : Env) (wd : WD) (cA : Bool)
    (script : String) (args : List GoValue) (sfx : String) :
    countSessionDeletes (execScript env wd cA script args sfx).2.2 +
      quitBudget (execScript env wd cA script args sfx).1 = quitBudget wd := by
  have hp := execScript_proj env wd cA script args sfx
  rw [hp.1, hp.2]
  exact send_sd env wd cA "POST" ["session", wd.id, "execute" ++ sfx]
    (some (Json.obj [("args", scriptArgsJson args), ("script", Json.str script)])) rfl

theorem NewSession_sd (env : Env) (wd : WD) (cA : Bool) :
    countSessionDeletes (NewSession env wd cA).2.2 +
      quitBudget (NewSession env wd cA).1 = quitBudget wd := by
  have hp := NewSession_proj env wd cA
  have hb : quitBudget (NewSession env wd cA).1 =
      quitBudget (send env wd cA "POST" ["session"]
        (some (Json.obj [("desiredCapabilities", wd.capabilities)]))).1 := by
    simp [quitBudget, hp.1]
  rw [hp.2, hb]
  exact send_sd env wd cA "POST" ["session"]
    (some (Json.obj [("desiredCapabilities", wd.capabilities)])) rfl

theorem stepOp_sd (s : StepInput) (wd : WD) :
    countSessionDeletes (stepOp s wd).2.1 + quitBudget (stepOp s wd).1 = quitBudget wd := by
  rcases s with ⟨env, cA, op⟩
  cases op with
  | opQuit =>
    have hs := quit_sd env wd
    rcases h : Quit env wd with ⟨wd1, e, reqs⟩
    rw [h] at hs
    simpa [stepOp, h] using hs
  | opNewSession =>
    have hs := NewSession_sd env wd cA
    rcases h : NewSession env wd cA with ⟨wd1, out, reqs⟩
    rw [h] at hs
    rcases out with v | m <;> simpa [stepOp, h] using hs
  | opTitle =>
    have hs := stringCommand_sd env wd cA ["session", wd.id, "title"] rfl
    rcases h : stringCommand env wd cA ["session", wd.id, "title"] with ⟨wd1, out, reqs⟩
    rw [h] at hs
    rcases out with v | m <;> simpa [stepOp, h] using hs
  | opNavigate url =>
    have hs := voidCommand_sd env wd cA ["session", wd.id, "url"]
      (some (Json.obj [("url", Json.str url)])) rfl
    rcases h : voidCommand env wd cA ["session", wd.id, "url"]
        (some (Json.obj [("url", Json.str url)])) with ⟨wd1, e, reqs⟩
    rw [h] at hs
    simpa [stepOp, h] using hs
  | opClose =>
    have hs := execute_sd env wd cA "DELETE" ["session", wd.id, "window"] none rfl
    rcases h : execute env wd cA "DELETE" ["session", wd.id, "window"] none with ⟨wd1, r, reqs⟩
    rw [h] at hs
    simpa [stepOp, h] using hs
  | opDeleteAllCookies =>
    have hs := execute_sd env wd cA "DELETE" ["session", wd.id, "cookie"] none rfl
    rcases h : execute env wd cA "DELETE" ["session", wd.id, "cookie"] none with ⟨wd1, r, reqs⟩
    rw [h] at hs
    simpa [stepOp, h] using hs
  | opDeleteCookie name =>
    have hs := execute_sd env wd cA "DELETE" ["session", wd.id, "cookie", name] none rfl
    rcases h : execute env wd cA "DELETE" ["session", wd.id, "cookie", name] none with
      ⟨wd1, r, reqs⟩
    rw [h] at hs
    simpa [stepOp, h] using hs
  | opGetCookies =>
    have hs := GetCookies_sd env wd cA
    rcases h : GetCookies env wd cA with ⟨wd1, out, reqs⟩
    rw [h] at hs
    rcases out with v | m <;> simpa [stepOp, h] using hs
  | opFindElement strategy value =>
    have hs := FindElement_sd env wd cA strategy value
    rcases h : FindElement env wd cA strategy value with ⟨wd1, out, reqs⟩
    rw [h] at hs
    rcases out with v | m <;> simpa [stepOp, h] using hs
  | opExecuteScript script args =>
    have hs := execScript_sd env wd cA script args ""
    rcases h : execScript env wd cA script args "" with ⟨wd1, out, reqs⟩
    rw [h] at hs
    rcases out with v | m <;> simpa [stepOp, h] using hs

theorem runSteps_sd (ss : List StepInput) (wd : WD) :
    countSessionDeletes (runSteps ss wd).2 + quitBudget (runSteps ss wd).1 = quitBudget wd := by
  induction ss generalizing wd with
  | nil => simp [runSteps, countSessionDeletes]
  | cons s rest ih =>
    have hs := stepOp_sd s wd
    rcases h : stepOp s wd with ⟨wd1, reqs, pan⟩
    rw [h] at hs
    cases pan with
    | true => simpa [runSteps, h] using hs
    | false =>
      have hr := ih wd1
      rcases h2 : runSteps rest wd1 with ⟨wdN, more⟩
      rw [h2] at hr
      simp only [runSteps, h, h2, countSD_append]
      dsimp only at hs hr ⊢
      omega

/-- C1: Quit is guarded by the one-shot flag: once a driver has quit,
every further Quit returns a nil error and an empty wire trace, the
flag stays set forever, and any history of operations started on a
fresh driver sends at most one session-delete request. -/
theorem C1_quit_idempotent_single_delete :
    (∀ (env : Env) (wd : WD), wd.haveQuit = true → Quit env wd = (wd, none, [])) ∧
    (∀ (env : Env) (wd : WD), ((Quit env wd).1).haveQuit = true) ∧
    (∀ (ss : List StepInput) (wd : WD), wd.haveQuit = false →
      countSessionDeletes (runSteps ss wd).2 ≤ 1) := by
  refine ⟨?_, ?_, ?_⟩
  · intro env wd h
    simp [Quit, h]
  · intro env wd
    exact quit_haveQuit env wd
  · intro ss wd h
    have hrs := runSteps_sd ss wd
    have hb : quitBudget wd = 1 := by simp [quitBudget, h]
    omega

/-- A network environment that refuses every request. -/
def envDown : Env := fun _ => Except.error "connection refused"

/-- A driver that has already quit. -/
def wdQuitDone : WD :=
  { id := "", capabilities := Json.null, ctxCanceled := false, haveQuit := true }

/-- Witness for C1 at concrete inputs: a second Quit is a silent
no-op, and a double-Quit history sends at most one session delete. -/
theorem C1_quit_idempotent_single_delete_witness :
    Quit envDown wdQuitDone = (wdQuitDone, none, []) ∧
    countSessionDeletes
      (runSteps [⟨envDown, false, Op.opQuit⟩, ⟨envDown, false, Op.opQuit⟩]
        (initialWD Json.null)).2 ≤ 1 :=
  ⟨C1_quit_idempotent_single_delete.1 envDown wdQuitDone rfl,
   C1_quit_idempotent_single_delete.2.2
     [⟨envDown, false, Op.opQuit⟩, ⟨envDown, false, Op.opQuit⟩] (initialWD Json.null) rfl⟩

/-- C2: the executor checks the driver's cancellation token before
sending and again after the round-trip.  If the pre-send check fires,
the command returns ErrCanceled without its own request ever being
issued, after a best-effort Quit; if the post-round-trip check fires,
the command's request is on the wire but the result is replaced by
ErrCanceled and the same best-effort Quit runs.  That Quit operates
on a state whose token has been reset to the never-canceled
background token and unconditionally issues the one session-delete
request (when the driver had not already quit), so the remote session
is not leaked. -/
theorem C2_cancellation_guard :
    (∀ (env : Env) (wd : WD) (cA : Bool) (m : String) (p : List String) (d : Option Json),
      wd.ctxCanceled = true →
        execute env wd cA m p d =
          ((Quit env wd).1, Except.error Err.canceled, (Quit env wd).2.2)) ∧
    (∀ (env : Env) (wd : WD) (m : String) (p : List String) (d : Option Json),
      wd.ctxCanceled = false →
        execute env wd true m p d =
          ((Quit env { wd with ctxCanceled := true }).1, Except.error Err.canceled,
            ⟨m, p, d⟩ :: (Quit env { wd with ctxCanceled := true }).2.2)) ∧
    (∀ (env : Env) (wd : WD), wd.haveQuit = false →
      ((Quit env wd).1).ctxCanceled = false ∧
      (Quit env wd).2.2 = [⟨"DELETE", ["session", wd.id], none⟩]) := by
  refine ⟨?_, ?_, ?_⟩
  · intro env wd cA m p d h
    rcases hq : Quit env wd with ⟨wd1, e, reqs⟩
    simp [execute, h, hq]
  · intro env wd m p d h
    rcases hq : Quit env { wd with ctxCanceled := true } with ⟨wd1, e, reqs⟩
    simp [execute, h, executeCore, hq]
  · intro env wd h
    rcases hres : executeResult env "DELETE" ["session", wd.id] none with e | b <;>
      simp [Quit, executeCore, h, hres]

/-- A canceled driver holding an open session. -/
def wdCanceled : WD :=
  { id := "s", capabilities := Json.null, ctxCanceled := true, haveQuit := false }

/-- Witness for C2 at concrete inputs: with the token fired before
the send, the command is not sent and ErrCanceled comes back. -/
theorem C2_cancellation_guard_witness :
    wdCanceled.ctxCanceled = true ∧
    execute envDown wdCanceled false "GET" ["session", "s", "title"] none =
      ((Quit envDown wdCanceled).1, Except.error Err.canceled,
        (Quit envDown wdCanceled).2.2) ∧
    wdCanceled.haveQuit = false ∧
    (Quit envDown wdCanceled).2.2 = [⟨"DELETE", ["session", "s"], none⟩] :=
  ⟨rfl,
   C2_cancellation_guard.1 envDown wdCanceled false "GET" ["session", "s", "title"] none rfl,
   rfl,
   (C2_cancellation_guard.2.2 envDown wdCanceled rfl).2⟩

/-- C3: the protocol error text built by pE agrees with the spec's
description - the catalog entry of the status (with the synthesized
"unknown error - <status>" fallback) followed by the quoted backend
message recovered by the two-level decode, which falls back to the
empty string whenever either level is absent or fails; status 11 maps
to "element not visible". -/
theorem C3_error_envelope_decoding :
    (∀ r : Reply, pE r = specErrorText r) ∧
    errorCodes.lookup (11 : Int) = some "element not visible" ∧
    (∀ s : Int, errorCodes.lookup s = none →
      catalogMessage s = "unknown error - " ++ toString s) := by
  refine ⟨?_, rfl, ?_⟩
  · intro r
    have hempty : unmarshalReplyMessage "" = Except.error "invalid json" := rfl
    unfold pE specErrorText specBackendMessage catalogMessage
    rcases hv : readValueWith decodeReplyValue r.value with e | sr
    · simp [hv]
    · by_cases hm : sr.message = ""
      · simp [hv, hm, hempty]
      · rcases hr : unmarshalReplyMessage sr.message with e2 | rm <;> simp [hv, hm, hr]
  · intro s h
    simp [catalogMessage, h]

/-- Witness for C3 at a concrete input: status 99 is not in the
catalog and synthesizes the fallback message. -/
theorem C3_error_envelope_decoding_witness :
    errorCodes.lookup (99 : Int) = none ∧
    catalogMessage 99 = "unknown error - " ++ toString (99 : Int) :=
  ⟨rfl, C3_error_envelope_decoding.2.2 99 rfl⟩

/-- C4: an HTTP status of at least 400 makes the command fail: when
the body does not parse as a reply envelope, with the generic error
text carrying the raw HTTP status line; when it does parse, with the
catalog-decoded protocol error - for every envelope, including one
whose own status field is SUCCESS (0). -/
theorem C4_http_error_classification :
    ∀ (env : Env) (m : String) (p : List String) (d : Option Json) (res : HttpResponse),
      env ⟨m, p, d⟩ = Except.ok res → 400 ≤ res.statusCode →
      (∀ e, unmarshalReply res.body = Except.error e →
        executeResult env m p d =
          Except.error (Err.badReplyStatus ("Bad server reply status: " ++ res.status))) ∧
      (∀ reply, unmarshalReply res.body = Except.ok reply →
        executeResult env m p d = Except.error (Err.protocol (pE reply))) := by
  intro env m p d res henv hcode
  constructor
  · intro e hparse
    simp [executeResult, henv, hcode, hparse]
  · intro reply hparse
    simp [executeResult, henv, hcode, hparse]

/-- An environment returning 404 with an unparsable body. -/
def envBad404 : Env :=
  fun _ => Except.ok ⟨404, "404 Not Found", "text/html", "not json"⟩

/-- An environment returning 500 whose body is a well-formed envelope
with status SUCCESS (0). -/
def envBad500 : Env :=
  fun _ => Except.ok
    ⟨500, "500 Internal Server Error", jsonMIMEType,
     "\x7b\"sessionId\":\"s\",\"status\":0,\"value\":null\x7d"⟩

/-- Witness for C4 at concrete inputs: the unparsable 404 body yields
the generic status-line error, and the parsable 500 body yields the
catalog-decoded error even though the envelope says SUCCESS. -/
theorem C4_http_error_classification_witness :
    executeResult envBad404 "GET" ["status"] none =
      Except.error (Err.badReplyStatus "Bad server reply status: 404 Not Found") ∧
    executeResult envBad500 "GET" ["status"] none =
      Except.error (Err.protocol (pE ⟨"s", 0, some Json.null⟩)) :=
  ⟨(C4_http_error_classification envBad404 "GET" ["status"] none
      ⟨404, "404 Not Found", "text/html", "not json"⟩ rfl (by decide)).1
      "invalid json" rfl,
   (C4_http_error_classification envBad500 "GET" ["status"] none
      ⟨500, "500 Internal Server Error", jsonMIMEType,
        "\x7b\"sessionId\":\"s\",\"status\":0,\"value\":null\x7d"⟩ rfl (by decide)).2
      ⟨"s", 0, some Json.null⟩ rfl⟩

/-! ## Session-id dynamics -/

/-- The session-delete request of a Quit starting from this state
would succeed against this environment. -/
def quitDeleteOk (env : Env) (wd : WD) : Prop :=
  ∃ b, executeResult env "DELETE" ["session", wd.id] none = Except.ok b

theorem quit_id (env : Env) (wd : WD) :
    (Quit env wd).1.id = wd.id ∨
    ((Quit env wd).1.id = "" ∧ wd.haveQuit = false ∧ quitDeleteOk env wd) := by
  by_cases h : wd.haveQuit = true
  · left
    simp [Quit, h]
  · have h1 : wd.haveQuit = false := by simpa using h
    rcases hres : executeResult env "DELETE" ["session", wd.id] none with e | b
    · left
      simp [Quit, executeCore, h1, hres]
    · right
      exact ⟨by simp [Quit, executeCore, h1, hres], h1, ⟨b, hres⟩⟩

theorem execute_id (env : Env) (wd : WD) (cA : Bool) (m : String)
    (p : List String) (d : Option Json) :
    (execute env wd cA m p d).1.id = wd.id ∨
    ((execute env wd cA m p d).1.id = "" ∧ wd.haveQuit = false ∧ quitDeleteOk env wd) := by
  by_cases hc : wd.ctxCanceled = true
  · have hq := quit_id env wd
    rcases hqe : Quit env wd with ⟨wd1, e, reqs⟩
    rw [hqe] at hq
    simpa [execute, hc, hqe] using hq
  · have hc1 : wd.ctxCanceled = false := by simpa using hc
    by_cases ha : cA = true
    · have hq := quit_id env { wd with ctxCanceled := true }
      rcases hqe : Quit env { wd with ctxCanceled := true } with ⟨wd1, e, reqs⟩
      rw [hqe] at hq
      simpa [execute, hc1, ha, executeCore, hqe, quitDeleteOk] using hq
    · have ha1 : cA = false := by simpa using ha
      left
      simp [execute, hc1, ha1, executeCore]

theorem send_id (env : Env) (wd : WD) (cA : Bool) (m : String)
    (p : List String) (d : Option Json) :
    (send env wd cA m p d).1.id = wd.id ∨
    ((send env wd cA m p d).1.id = "" ∧ wd.haveQuit = false ∧ quitDeleteOk env wd) := by
  have he := execute_id env wd cA m p d
  rcases hx : execute env wd cA m p d with ⟨wd1, res, reqs⟩
  rw [hx] at he
  rcases res with e | buf
  · simpa [send, hx] using he
  · by_cases hb : buf.length > 0
    · rcases hr : unmarshalReplyPtr buf with msg | r <;>
        simpa [send, hx, hb, hr] using he
    · simpa [send, hx, hb] using he

theorem execute_ok_state (env : Env) (wd : WD) (cA : Bool) (m : String)
    (p : List String) (d : Option Json) (buf : String)
    (h : (execute env wd cA m p d).2.1 = Except.ok buf) :
    (execute env wd cA m p d).1 = wd := by
  by_cases hc : wd.ctxCanceled = true
  · rcases hqe : Quit env wd with ⟨wd1, e, reqs⟩
    simp [execute, hc, hqe] at h
  · have hc1 : wd.ctxCanceled = false := by simpa using hc
    by_cases ha : cA = true
    · rcases hqe : Quit env { wd with ctxCanceled := true } with ⟨wd1, e, reqs⟩
      simp [execute, hc1, ha, executeCore, hqe] at h
    · have ha1 : cA = false := by simpa using ha
      simp [execute, hc1, ha1, executeCore]

theorem send_ok_state (env : Env) (wd : WD) (cA : Bool) (m : String)
    (p : List String) (d : Option Json) (r : Option Reply)
    (h : (send env wd cA m p d).2.1 = Except.ok r) :
    (send env wd cA m p d).1 = wd := by
  rcases hx : execute env wd cA m p d with ⟨wd1, res, reqs⟩
  rcases res with e | buf
  · simp [send, hx] at h
  · have := execute_ok_state env wd cA m p d buf (by rw [hx])
    rw [hx] at this
    by_cases hb : buf.length > 0
    · rcases hr : unmarshalReplyPtr buf with msg | r2
      · simp [send, hx, hb, hr] at h
      · simpa [send, hx, hb, hr] using this
    · simpa [send, hx, hb] using this

/-- C5: the session id starts empty on the driver NewRemote builds,
and a step of any modelled operation either leaves the id unchanged,
or clears it because a not-yet-quit driver's session-delete request
succeeded against the environment (a Quit - explicit or the
cancellation guard's best-effort one), or is a NewSession whose send
succeeded and whose reply's session id is stored verbatim.  No other
write to the id exists. -/
theorem C5_session_id_lifecycle :
    (∀ caps : Json, (initialWD caps).id = "") ∧
    (∀ (s : StepInput) (wd : WD),
      (stepOp s wd).1.id = wd.id ∨
      ((stepOp s wd).1.id = "" ∧ wd.haveQuit = false ∧ quitDeleteOk s.env wd) ∨
      (s.op = Op.opNewSession ∧ ∃ r : Reply,
        (send s.env wd s.cancelAfter "POST" ["session"]
          (some (Json.obj [("desiredCapabilities", wd.capabilities)]))).2.1 =
            Except.ok (some r) ∧
        (stepOp s wd).1.id = r.sessionId)) := by
  refine ⟨fun _ => rfl, ?_⟩
  intro s wd
  rcases s with ⟨env, cA, op⟩
  cases op with
  | opQuit =>
    have hq := quit_id env wd
    rcases h : Quit env wd with ⟨wd1, e, reqs⟩
    rw [h] at hq
    rcases hq with hq | hq
    · left
      simpa [stepOp, h] using hq
    · right; left
      simpa [stepOp, h] using hq
  | opNewSession =>
    rcases h : send env wd cA "POST" ["session"]
        (some (Json.obj [("desiredCapabilities", wd.capabilities)])) with ⟨wd1, res, reqs⟩
    have hs := send_id env wd cA "POST" ["session"]
      (some (Json.obj [("desiredCapabilities", wd.capabilities)]))
    rw [h] at hs
    rcases res with e | r
    · rcases hs with hs | hs
      · left
        simpa [stepOp, NewSession, h] using hs
      · right; left
        simpa [stepOp, NewSession, h] using hs
    · rcases r with _ | r
      · rcases hs with hs | hs
        · left
          simpa [stepOp, NewSession, h] using hs
        · right; left
          simpa [stepOp, NewSession, h] using hs
      · right; right
        refine ⟨rfl, r, by simp [h], ?_⟩
        simp [stepOp, NewSession, h]
  | opTitle =>
    have hp := (stringCommand_proj env wd cA ["session", wd.id, "title"]).1
    have hs := send_id env wd cA "GET" ["session", wd.id, "title"] none
    rcases h : stringCommand env wd cA ["session", wd.id, "title"] with ⟨wd1, out, reqs⟩
    rw [h] at hp
    rw [← hp] at hs
    rcases out with v | m
    · rcases hs with hs | hs
      · left; simpa [stepOp, h] using hs
      · right; left; simpa [stepOp, h] using hs
    · rcases hs with hs | hs
      · left; simpa [stepOp, h] using hs
      · right; left; simpa [stepOp, h] using hs
  | opNavigate url =>
    have hp := (voidCommand_proj env wd cA ["session", wd.id, "url"]
      (some (Json.obj [("url", Json.str url)]))).1
    have hs := send_id env wd cA "POST" ["session", wd.id, "url"]
      (some (Json.obj [("url", Json.str url)]))
    rcases h : voidCommand env wd cA ["session", wd.id, "url"]
        (some (Json.obj [("url", Json.str url)])) with ⟨wd1, e, reqs⟩
    rw [h] at hp
    rw [← hp] at hs
    rcases hs with hs | hs
    · left; simpa [stepOp, h] using hs
    · right; left; simpa [stepOp, h] using hs
  | opClose =>
    have hs := execute_id env wd cA "DELETE" ["session", wd.id, "window"] none
    rcases h : execute env wd cA "DELETE" ["session", wd.id, "window"] none with
      ⟨wd1, r, reqs⟩
    rw [h] at hs
    rcases hs with hs | hs
    · left; simpa [stepOp, h] using hs
    · right; left; simpa [stepOp, h] using hs
  | opDeleteAllCookies =>
    have hs := execute_id env wd cA "DELETE" ["session", wd.id, "cookie"] none
    rcases h : execute env wd cA "DELETE" ["session", wd.id, "cookie"] none with
      ⟨wd1, r, reqs⟩
    rw [h] at hs
    rcases hs with hs | hs
    · left; simpa [stepOp, h] using hs
    · right; left; simpa [stepOp, h] using hs
  | opDeleteCookie name =>
    have hs := execute_id env wd cA "DELETE" ["session", wd.id, "cookie", name] none
    rcases h : execute env wd cA "DELETE" ["session", wd.id, "cookie", name] none with
      ⟨wd1, r, reqs⟩
    rw [h] at hs
    rcases hs with hs | hs
    · left; simpa [stepOp, h] using hs
    · right; left; simpa [stepOp, h] using hs
  | opGetCookies =>
    have hp := (GetCookies_proj env wd cA).1
    have hs := send_id env wd cA "GET" ["session", wd.id, "cookie"] none
    rcases h : GetCookies env wd cA with ⟨wd1, out, reqs⟩
    rw [h] at hp
    rw [← hp] at hs
    rcases out with v | m
    · rcases hs with hs | hs
      · left; simpa [stepOp, h] using hs
      · right; left; simpa [stepOp, h] using hs
    · rcases hs with hs | hs
      · left; simpa [stepOp, h] using hs
      · right; left; simpa [stepOp, h] using hs
  | opFindElement strategy value =>
    have hp := (FindElement_proj env wd cA strategy value).1
    have hs := send_id env wd cA "POST" ["session", wd.id, "element"]
      (some (Json.obj [("using", Json.str strategy), ("value", Json.str value)]))
    rcases h : FindElement env wd cA strategy value with ⟨wd1, out, reqs⟩
    rw [h] at hp
    have hp2 : (wd1, out, reqs).1 =
        (send env wd cA "POST" ["session", wd.id, "element"]
          (some (Json.obj [("using", Json.str strategy), ("value", Json.str value)]))).1 := hp
    rw [← hp2] at hs
    rcases out with v | m
    · rcases hs with hs | hs
      · left; simpa [stepOp, h] using hs
      · right; left; simpa [stepOp, h] using hs
    · rcases hs with hs | hs
      · left; simpa [stepOp, h] using hs
      · right; left; simpa [stepOp, h] using hs
  | opExecuteScript script args =>
    have hp := (execScript_proj env wd cA script args "").1
    have hs := send_id env wd cA "POST" ["session", wd.id, "execute"]
      (some (Json.obj [("args", scriptArgsJson args), ("script", Json.str script)]))
    rcases h : execScript env wd cA script args "" with ⟨wd1, out, reqs⟩
    rw [h] at hp
    have hp2 : (wd1, out, reqs).1 =
        (send env wd cA "POST" ["session", wd.id, "execute"]
          (some (Json.obj [("args", scriptArgsJson args), ("script", Json.str script)]))).1 := hp
    rw [← hp2] at hs
    rcases out with v | m
    · rcases hs with hs | hs
      · left; simpa [stepOp, h] using hs
      · right; left; simpa [stepOp, h] using hs
    · rcases hs with hs | hs
      · left; simpa [stepOp, h] using hs
      · right; left; simpa [stepOp, h] using hs

/-! ## Script-argument substitution (C6) -/

/-- Marshaling after the top-level rewrite: a handle at the top of
the args list becomes the wire-level element reference, everything
else marshals as it is. -/
def marshalTopSubstituted (a : GoValue) : Json :=
  match a with
  | GoValue.handle id => Json.obj [("ELEMENT", Json.str id)]
  | a => marshalGoValue a

theorem scriptArgs_map (args : List GoValue) :
    (substituteScriptArgs args).map marshalGoValue = args.map marshalTopSubstituted := by
  induction args with
  | nil => rfl
  | cons a rest ih =>
    have hcons : substituteScriptArgs (a :: rest) =
        (match a with
         | GoValue.handle id => GoValue.elementRef id
         | a => a) :: substituteScriptArgs rest := rfl
    rw [hcons, List.map_cons, List.map_cons, ih]
    congr 1
    cases a <;> rfl

/-- C6 counterexample: the claim says every element handle in the
argument list is rewritten to the wire-level ELEMENT object, not just
top-level ones.  For the single argument [handle e1] - a slice
containing a handle - the rewrite loop leaves the argument untouched
and the nested handle marshals as the empty object, whereas the
spec's deep substitution would produce the ELEMENT object; the two
marshaled forms differ. -/
theorem C6_counterexample :
    substituteScriptArgs [GoValue.scons (GoValue.handle "e1") GoValue.snil] =
      [GoValue.scons (GoValue.handle "e1") GoValue.snil] ∧
    scriptArgsJson [GoValue.scons (GoValue.handle "e1") GoValue.snil] =
      Json.arr [Json.arr [Json.obj []]] ∧
    Json.arr ((([GoValue.scons (GoValue.handle "e1") GoValue.snil].map
        specDeepSubstitute)).map marshalGoValue) =
      Json.arr [Json.arr [Json.obj [("ELEMENT", Json.str "e1")]]] ∧
    Json.arr [Json.arr [Json.obj []]] ≠
      Json.arr [Json.arr [Json.obj [("ELEMENT", Json.str "e1")]]] := by
  refine ⟨rfl, rfl, rfl, ?_⟩
  intro h
  have h2 := h
  simp at h2

/-- C6 amended: before marshaling, only arguments that are element
handles at the top level of the args list are rewritten to the
wire-level ELEMENT object; every other argument - including
containers whose nested elements are handles - passes through
unchanged, and a nested handle marshals as the empty object. -/
theorem C6_top_level_substitution :
    (∀ args : List GoValue,
      scriptArgsJson args = Json.arr (args.map marshalTopSubstituted)) ∧
    (∀ a : GoValue, (¬ ∃ id, a = GoValue.handle id) →
      marshalTopSubstituted a = marshalGoValue a) ∧
    (∀ id : String, marshalGoValue (GoValue.handle id) = Json.obj []) := by
  refine ⟨?_, ?_, fun _ => rfl⟩
  · intro args
    unfold scriptArgsJson
    exact congrArg Json.arr (scriptArgs_map args)
  · intro a h
    cases a with
    | handle id => exact absurd ⟨id, rfl⟩ h
    | jval j => rfl
    | elementRef id => rfl
    | snil => rfl
    | scons hd tl => rfl

/-- Witness for C6's amended statement at a concrete input: a
top-level handle is rewritten, a plain value is not. -/
theorem C6_top_level_substitution_witness :
    scriptArgsJson [GoValue.handle "e7", GoValue.jval (Json.num 3)] =
      Json.arr [Json.obj [("ELEMENT", Json.str "e7")], Json.num 3] ∧
    ¬ (∃ id, GoValue.jval (Json.num 3) = GoValue.handle id) ∧
    marshalTopSubstituted (GoValue.jval (Json.num 3)) =
      marshalGoValue (GoValue.jval (Json.num 3)) := by
  refine ⟨C6_top_level_substitution.1 [GoValue.handle "e7", GoValue.jval (Json.num 3)],
    ?_, C6_top_level_substitution.2.1 (GoValue.jval (Json.num 3)) ?_⟩ <;>
    · rintro ⟨id, hid⟩
      cases hid

/-! ## Cookie expiry (C7) -/

/-- One position of the patch as the spec words it: write the
tolerant numeric's floor into the cookie, or leave it alone when the
numeric is unavailable. -/
def specPatchCookie (c : Cookie) (e : Option Rat) : Cookie :=
  match e with
  | none => c
  | some q => { c with expiry := goFloatToUint q }

theorem patchExpiries_eq (cookies : List Cookie) (exps : List (Option Rat))
    (h : cookies.length ≤ exps.length) :
    patchExpiries cookies exps = Outcome.ok (List.zipWith specPatchCookie cookies exps) := by
  induction cookies generalizing exps with
  | nil => simp [patchExpiries]
  | cons c cs ih =>
    cases exps with
    | nil => simp at h
    | cons e es =>
      have h2 := ih es (by simpa using h)
      rcases e with _ | q <;> simp [patchExpiries, h2, specPatchCookie]

/-- C7: the primary cookie decode never writes an expiry (the field's
json tag is "-"), the secondary decode's failure leaves the decoded
cookies - and so their zero expiries - untouched while the command
still succeeds, and its success writes the floor of each tolerant
numeric into the cookie at the matching position. -/
theorem C7_cookie_expiry_patch :
    (∀ (j : Json) (c : Cookie), decodeCookie j = Except.ok c → c.expiry = 0) ∧
    (∀ (cookies : List Cookie) (raw : Option Json) (e : String),
      decodeExpiries raw = Except.error e →
        parseCookieExpiry cookies raw = Outcome.ok cookies) ∧
    (∀ (cookies : List Cookie) (raw : Option Json) (exps : List (Option Rat)),
      decodeExpiries raw = Except.ok exps → cookies.length ≤ exps.length →
        parseCookieExpiry cookies raw =
          Outcome.ok (List.zipWith specPatchCookie cookies exps)) := by
  refine ⟨?_, ?_, ?_⟩
  · intro j c h
    cases j with
    | null =>
      have hc : (⟨"", "", "", "", false, 0⟩ : Cookie) = c := by
        simpa [decodeCookie] using h
      rw [← hc]
    | obj fs =>
      revert h
      simp only [decodeCookie]
      rcases h1 : decodeStrField fs "name" with e1 | name
      · intro h; cases h
      rcases h2 : decodeStrField fs "value" with e2 | value
      · intro h; cases h
      rcases h3 : decodeStrField fs "path" with e3 | path
      · intro h; cases h
      rcases h4 : decodeStrField fs "domain" with e4 | domain
      · intro h; cases h
      rcases h5 : decodeBoolField fs "secure" with e5 | secure
      · intro h; cases h
      intro h
      have hc : (⟨name, value, path, domain, secure, 0⟩ : Cookie) = c := by
        simpa using h
      rw [← hc]
    | bool b => cases h
    | num q => cases h
    | str s => cases h
    | arr xs => cases h
  · intro cookies raw e h
    simp [parseCookieExpiry, h]
  · intro cookies raw exps h hlen
    simp [parseCookieExpiry, h, patchExpiries_eq cookies exps hlen]

/-- Witness for C7 at the spec's concrete input: a raw value
[\x7bExpiry: 1700000000\x7d] patches the single decoded cookie's expiry
to 1700000000. -/
theorem C7_cookie_expiry_patch_witness :
    decodeCookie (Json.obj [("name", Json.str "a"), ("Expiry", Json.num 1700000000)]) =
      Except.ok ⟨"a", "", "", "", false, 0⟩ ∧
    decodeExpiries (some (Json.arr [Json.obj [("name", Json.str "a"),
        ("Expiry", Json.num 1700000000)]])) = Except.ok [some 1700000000] ∧
    parseCookieExpiry [⟨"a", "", "", "", false, 0⟩]
        (some (Json.arr [Json.obj [("name", Json.str "a"),
          ("Expiry", Json.num 1700000000)]])) =
      Outcome.ok [⟨"a", "", "", "", false, 1700000000⟩] :=
  ⟨rfl, rfl,
   C7_cookie_expiry_patch.2.2 [⟨"a", "", "", "", false, 0⟩]
     (some (Json.arr [Json.obj [("name", Json.str "a"), ("Expiry", Json.num 1700000000)]]))
     [some 1700000000] rfl (by decide)⟩

/-! ## Malformed element replies (C8) -/

/-- A driver holding session "s". -/
def wdSession : WD :=
  { id := "s", capabilities := Json.null, ctxCanceled := false, haveQuit := false }

/-- An environment whose find-element reply is a success envelope
whose value is the string "oops" instead of an element reference
object. -/
def envElemBad : Env :=
  fun _ => Except.ok
    ⟨200, "200 OK", jsonMIMEType,
     "\x7b\"sessionId\":\"s\",\"status\":0,\"value\":\"oops\"\x7d"⟩

/-- C8, evaluated at the failing input: a find-element reply whose
value does not decode as an element reference makes decodeElement
panic (and with it FindElement and the calling process), instead of
returning the decode error to the caller as the claim states;
likewise for decodeElements and a value that is not a sequence of
element references. -/
theorem C8_malformed_element_reply_panics :
    decodeElement (some ⟨"s", 0, some (Json.str "oops")⟩) =
      Outcome.panicked "cannot unmarshal into element" ∧
    (FindElement envElemBad wdSession false "css selector" "a").2.1 =
      Outcome.panicked "cannot unmarshal into element" ∧
    decodeElements (some ⟨"s", 0, some (Json.str "oops")⟩) =
      Outcome.panicked "cannot unmarshal into element slice" := by
  exact ⟨rfl, rfl, rfl⟩

/-! ## Redirect policy (C9) -/

theorem redirectLoop_err (n : Nat) (via : List HReq) (cur : HReq)
    (h1 : 1 ≤ n) (h2 : 10 ≤ n + via.length) :
    redirectLoop n via cur = Except.error "stopped after 10 redirects" := by
  induction n generalizing via cur with
  | zero => omega
  | succ n ih =>
    by_cases hv : 10 ≤ via.length + 1
    · simp [redirectLoop, checkRedirect, hv]
    · have hn : 1 ≤ n := by omega
      have hrec := ih (via ++ [cur]) ⟨[jsonMIMEType]⟩ hn (by simp; omega)
      simp [redirectLoop, checkRedirect, hv, hrec]

theorem redirectLoop_ok (n : Nat) (via : List HReq) (cur : HReq)
    (h : n + via.length ≤ 9) :
    redirectLoop n via cur =
      Except.ok (via ++ cur :: List.replicate n ⟨[jsonMIMEType]⟩) := by
  induction n generalizing via cur with
  | zero => simp [redirectLoop]
  | succ n ih =>
    have hv : ¬ 10 ≤ via.length + 1 := by omega
    have hrec := ih (via ++ [cur]) ⟨[jsonMIMEType]⟩ (by simp; omega)
    simp only [redirectLoop, checkRedirect, List.length_append, List.length_cons,
      List.length_nil, List.nil_append, Nat.zero_add, if_neg hv, hrec,
      List.replicate_succ]
    simp [List.append_assoc]

/-- C9 counterexample: the claim says the client follows up to 10
redirects, failing only beyond that (a chain of 11), so a chain of
exactly 10 redirect responses would have to succeed.  It fails: the
check `len(via) >= 10` counts the initial request, so the tenth
redirect already exceeds the limit. -/
theorem C9_counterexample :
    runRedirects 10 = Except.error "stopped after 10 redirects" ∧
    (runRedirects 10).isOk = false := ⟨rfl, rfl⟩

/-- C9 amended: the executor's client follows up to 9 redirects,
re-adding the Accept: application/json header to each redirected
request (every request of a successful chain carries it); a chain of
10 or more redirects fails with the terminal "stopped after 10
redirects" transport error - in particular a chain of 11 fails. -/
theorem C9_redirect_policy :
    (∀ n, n ≤ 9 → runRedirects n =
      Except.ok (⟨[jsonMIMEType]⟩ :: List.replicate n (⟨[jsonMIMEType]⟩ : HReq))) ∧
    (∀ n, 10 ≤ n → runRedirects n = Except.error "stopped after 10 redirects") ∧
    (∀ (req req2 : HReq) (via : List HReq), via.length < 10 →
      checkRedirect req via = Except.ok req2 → jsonMIMEType ∈ req2.accept) := by
  refine ⟨?_, ?_, ?_⟩
  · intro n h
    have := redirectLoop_ok n [] ⟨[jsonMIMEType]⟩ (by simpa using h)
    simpa [runRedirects] using this
  · intro n h
    exact redirectLoop_err n [] ⟨[jsonMIMEType]⟩ (by omega) (by simpa using h)
  · intro req req2 via hlen h
    have hv : ¬ 10 ≤ via.length := by omega
    simp only [checkRedirect, if_neg hv] at h
    cases h
    simp

/-- Witness for C9 at concrete inputs: a chain of 9 redirects
succeeds with the Accept header on all ten requests; a chain of 11
fails; a single allowed hop re-adds the Accept header. -/
theorem C9_redirect_policy_witness :
    runRedirects 9 =
      Except.ok (⟨[jsonMIMEType]⟩ :: List.replicate 9 (⟨[jsonMIMEType]⟩ : HReq)) ∧
    runRedirects 11 = Except.error "stopped after 10 redirects" ∧
    jsonMIMEType ∈ (⟨[jsonMIMEType]⟩ : HReq).accept :=
  ⟨C9_redirect_policy.1 9 (by decide),
   C9_redirect_policy.2.1 11 (by decide),
   C9_redirect_policy.2.2 ⟨[]⟩ ⟨[jsonMIMEType]⟩ [⟨[jsonMIMEType]⟩] (by decide) rfl⟩

/-! ## Empty success bodies (C10) -/

/-- An environment answering success with an empty body but a JSON
content type. -/
def envEmptyJson : Env :=
  fun _ => Except.ok ⟨200, "200 OK", jsonMIMEType, ""⟩

/-- An environment answering success with an empty body and no
content type. -/
def envEmptyPlain : Env :=
  fun _ => Except.ok ⟨200, "200 OK", "", ""⟩

/-- C10 counterexample: the claim quantifies over every success
response with an empty body, but when the Content-Type is the JSON
media type, execute itself fails to unmarshal the empty body and send
returns a decode error - not a nil reply with a nil error. -/
theorem C10_counterexample :
    send envEmptyJson wdSession false "GET" ["session", "s", "title"] none =
      (wdSession, Except.error (Err.jsonError "invalid json"),
        [⟨"GET", ["session", "s", "title"], none⟩]) := rfl

/-- C10 amended: for a success response with an empty body whose
content type does not begin with the JSON media type, send returns a
nil reply together with a nil error, and every operation that then
reads from the reply - NewSession reading SessionId, and
stringCommand / boolCommand / stringsCommand calling readValue -
dereferences the nil reply and panics instead of returning an
error. -/
theorem C10_nil_reply_panics :
    ∀ (env : Env) (wd : WD) (res : HttpResponse),
      (∀ req, env req = Except.ok res) →
      wd.ctxCanceled = false →
      res.statusCode < 400 →
      strStartsWith res.contentType jsonMIMEType = false →
      res.body = "" →
      (∀ (m : String) (p : List String) (d : Option Json),
        send env wd false m p d = (wd, Except.ok none, [⟨m, p, d⟩])) ∧
      (NewSession env wd false).2.1 = Outcome.panicked nilDeref ∧
      (∀ p, (stringCommand env wd false p).2.1 = Outcome.panicked nilDeref) ∧
      (∀ p, (boolCommand env wd false p).2.1 = Outcome.panicked nilDeref) ∧
      (∀ p, (stringsCommand env wd false p).2.1 = Outcome.panicked nilDeref) := by
  intro env wd res henv hc hcode hct hbody
  have hcode2 : ¬ 400 ≤ res.statusCode := by omega
  have hsend : ∀ (m : String) (p : List String) (d : Option Json),
      send env wd false m p d = (wd, Except.ok none, [⟨m, p, d⟩]) := by
    intro m p d
    simp [send, execute, executeCore, executeResult, hc, henv, hcode2, hct, hbody]
  refine ⟨hsend, ?_, ?_, ?_, ?_⟩
  · simp [NewSession, hsend]
  · intro p
    simp [stringCommand, hsend]
  · intro p
    simp [boolCommand, hsend]
  · intro p
    simp [stringsCommand, hsend]

/-- Witness for C10's amended statement at a concrete input: empty
non-JSON success bodies give a nil reply and nil error from send, and
a panic from NewSession and stringCommand. -/
theorem C10_nil_reply_panics_witness :
    send envEmptyPlain wdSession false "GET" ["session", "s", "title"] none =
      (wdSession, Except.ok none, [⟨"GET", ["session", "s", "title"], none⟩]) ∧
    (NewSession envEmptyPlain wdSession false).2.1 = Outcome.panicked nilDeref ∧
    (stringCommand envEmptyPlain wdSession false
        ["session", "s", "title"]).2.1 = Outcome.panicked nilDeref :=
  ⟨(C10_nil_reply_panics envEmptyPlain wdSession ⟨200, "200 OK", "", ""⟩
      (fun _ => rfl) rfl (by decide) rfl rfl).1 "GET" ["session", "s", "title"] none,
   (C10_nil_reply_panics envEmptyPlain wdSession ⟨200, "200 OK", "", ""⟩
      (fun _ => rfl) rfl (by decide) rfl rfl).2.1,
   (C10_nil_reply_panics envEmptyPlain wdSession ⟨200, "200 OK", "", ""⟩
      (fun _ => rfl) rfl (by decide) rfl rfl).2.2.1 ["session", "s", "title"]⟩

end Selenium
